import Mathlib

/-!
Verification development for the LinkedIn research agent.

The embedding below translates the three source files
(`linkedin_rapidapi_client.py`, `simple_linkedin_agent.py`, `app.py`)
into Lean definitions.  External effects (the LLM service and the
directory provider) are modelled as oracles supplied in an environment
record; every function of the program itself is a computable Lean
definition.  Machine reals never occur in the claims; step timestamps
are modelled as integer ticks of a strictly monotone clock and
confidence values as rationals.
-/

/-- A Python exception, identified by the text `str(e)` would produce. -/
structure Exc where
  msg : String
deriving DecidableEq, Repr

/-- A JSON-like Python value, as stored in a step's `result` field and
processed by `run_research_task` in `app.py` (`json.dumps` for dict/list,
`str` otherwise). -/
inductive PyVal where
  | vnull : PyVal
  | vbool (b : Bool) : PyVal
  | vint (n : Int) : PyVal
  | vstr (s : String) : PyVal
  | vlist (items : List PyVal) : PyVal
  | vdict (fields : List (String × PyVal)) : PyVal

/-- Escape one character for the JSON string encoder. -/
def jsonEscapeChar (c : Char) : String :=
  if c = '\\' then "\\\\"
  else if c = '"' then "\\\""
  else String.singleton c

/-- JSON encoding of a string literal (quote plus minimal escaping). -/
def jsonStr (s : String) : String :=
  "\"" ++ String.join (s.data.map jsonEscapeChar) ++ "\""

mutual
/-- The stable text encoding `json.dumps` applies to a Python value in
`run_research_task` (`app.py` line 120). -/
def json_dumps : PyVal → String
  | .vnull => "null"
  | .vbool b => if b then "true" else "false"
  | .vint n => toString n
  | .vstr s => jsonStr s
  | .vlist items => "[" ++ ", ".intercalate (jsonDumpsItems items) ++ "]"
  | .vdict fields => "\x7b" ++ ", ".intercalate (jsonDumpsFields fields) ++ "\x7d"

/-- Encodings of the elements of a JSON array. -/
def jsonDumpsItems : List PyVal → List String
  | [] => []
  | v :: vs => json_dumps v :: jsonDumpsItems vs

/-- Encodings of the key/value pairs of a JSON object. -/
def jsonDumpsFields : List (String × PyVal) → List String
  | [] => []
  | (k, v) :: rest => (jsonStr k ++ ": " ++ json_dumps v) :: jsonDumpsFields rest
end

/-- Boolean prefix test on character lists (used for the Python `in`
substring operator). -/
def listPrefixB : List Char → List Char → Bool
  | [], _ => true
  | _ :: _, [] => false
  | a :: as, b :: bs => a == b && listPrefixB as bs

/-- Boolean substring (contiguous) test on character lists. -/
def listInfixB (sub : List Char) : List Char → Bool
  | [] => sub.isEmpty
  | b :: bs => listPrefixB sub (b :: bs) || listInfixB sub bs

/-- Python `sub in hay` for strings: contiguous substring containment. -/
def strContainsB (hay sub : String) : Bool :=
  listInfixB sub.data hay.data

/-- Python `str.lower()` (character-wise lowercasing; the table keys it
is compared against are pure ASCII). -/
def strLower (s : String) : String :=
  ⟨s.data.map Char.toLower⟩

/-- Python truthiness of an optional string: `None` and `""` are falsy. -/
def strOptTruthy : Option String → Bool
  | none => false
  | some s => !(s == "")

/-! ## `linkedin_rapidapi_client.py` -/

/-- The `OrganizationInfo` record built by `get_company_info`.  The
records mapped from a live provider item carry an `employees` entry
(`linkedin_rapidapi_client.py` line 58); the fallback-table and generic
records do not, hence the `Option`. -/
structure CompanyInfo where
  name : String
  industry : String
  location : String
  description : String
  website : String
  linkedin_url : String
  logo_url : String
  employees : Option PyVal

/-- A raw provider item for the `/company` endpoint: every field the
mapping at `linkedin_rapidapi_client.py` lines 50-59 reads via `.get`,
absent when the provider omitted the key. -/
structure CompanyItem where
  name : Option String
  industry : Option String
  location : Option String
  description : Option String
  website : Option String
  linkedin_url : Option String
  logo_url : Option String
  employees : Option PyVal

/-- Outcome of the HTTP request issued by `get_company_info`:
a 200 response with its (possibly empty or missing) `items` collection,
a non-200 status, or a raised exception.  A missing `items` key and an
empty `items` list take the same branch in the source, so both are
`ok []`. -/
inductive CompanyResp where
  | ok (items : List CompanyItem) : CompanyResp
  | badStatus (code : Nat) : CompanyResp
  | exc (e : Exc) : CompanyResp

/-- The built-in Google fallback record
(`linkedin_rapidapi_client.py` lines 141-149). -/
def googleInfo : CompanyInfo :=
  { name := "Google"
    industry := "Technology"
    location := "Mountain View, CA"
    description := "Google is a multinational technology company that specializes in Internet-related services and products."
    website := "https://www.google.com"
    linkedin_url := "https://www.linkedin.com/company/google/"
    logo_url := "https://upload.wikimedia.org/wikipedia/commons/thumb/5/53/Google_%22G%22_Logo.svg/2048px-Google_%22G%22_Logo.svg.png"
    employees := none }

/-- The built-in Microsoft fallback record (lines 150-158). -/
def microsoftInfo : CompanyInfo :=
  { name := "Microsoft"
    industry := "Technology"
    location := "Redmond, WA"
    description := "Microsoft is a multinational technology company that develops, manufactures, licenses, supports, and sells computer software, consumer electronics, and personal computers and services."
    website := "https://www.microsoft.com"
    linkedin_url := "https://www.linkedin.com/company/microsoft/"
    logo_url := "https://upload.wikimedia.org/wikipedia/commons/thumb/4/44/Microsoft_logo.svg/2048px-Microsoft_logo.svg.png"
    employees := none }

/-- The built-in Apple fallback record (lines 159-167). -/
def appleInfo : CompanyInfo :=
  { name := "Apple"
    industry := "Technology"
    location := "Cupertino, CA"
    description := "Apple is a multinational technology company that designs, develops, and sells consumer electronics, computer software, and online services."
    website := "https://www.apple.com"
    linkedin_url := "https://www.linkedin.com/company/apple/"
    logo_url := "https://upload.wikimedia.org/wikipedia/commons/thumb/f/fa/Apple_logo_black.svg/1667px-Apple_logo_black.svg.png"
    employees := none }

/-- The built-in Amazon fallback record (lines 168-176). -/
def amazonInfo : CompanyInfo :=
  { name := "Amazon"
    industry := "E-commerce, Cloud Computing"
    location := "Seattle, WA"
    description := "Amazon is a multinational technology company focusing on e-commerce, cloud computing, digital streaming, and artificial intelligence."
    website := "https://www.amazon.com"
    linkedin_url := "https://www.linkedin.com/company/amazon/"
    logo_url := "https://upload.wikimedia.org/wikipedia/commons/thumb/a/a9/Amazon_logo.svg/2560px-Amazon_logo.svg.png"
    employees := none }

/-- The built-in Meta/Facebook fallback record (lines 177-185). -/
def facebookInfo : CompanyInfo :=
  { name := "Meta (formerly Facebook)"
    industry := "Technology, Social Media"
    location := "Menlo Park, CA"
    description := "Meta Platforms, Inc., doing business as Meta and formerly known as Facebook, Inc., is a multinational technology conglomerate that owns Facebook, Instagram, and WhatsApp, among other products and services."
    website := "https://about.meta.com"
    linkedin_url := "https://www.linkedin.com/company/meta/"
    logo_url := "https://upload.wikimedia.org/wikipedia/commons/thumb/7/7b/Meta_Platforms_Inc._logo.svg/2560px-Meta_Platforms_Inc._logo.svg.png"
    employees := none }

/-- The fixed `companies` table of `_get_fallback_company_info`
(lines 140-186), in its iteration order. -/
def companiesTable : List (String × CompanyInfo) :=
  [("google", googleInfo), ("microsoft", microsoftInfo), ("apple", appleInfo),
   ("amazon", amazonInfo), ("facebook", facebookInfo)]

/-- The bidirectional substring test of line 190:
`key in company_lower or company_lower in key`. -/
def matchesKey (companyLower key : String) : Bool :=
  strContainsB companyLower key || strContainsB key companyLower

/-- First table entry whose key matches the lowercased name, mirroring
the `for key, company_data in companies.items()` loop (lines 189-191). -/
def findCompany : List (String × CompanyInfo) → String → Option CompanyInfo
  | [], _ => none
  | (k, info) :: rest, lower =>
    if matchesKey lower k then some info else findCompany rest lower

/-- The generic placeholder record returned when no table entry matches
(lines 194-202). -/
def genericCompanyInfo (company_name : String) : CompanyInfo :=
  { name := company_name
    industry := "Unknown"
    location := "Unknown"
    description := "No description available"
    website := ""
    linkedin_url := ""
    logo_url := ""
    employees := none }

/-- `LinkedInRapidAPIClient._get_fallback_company_info` (lines 126-202). -/
def get_fallback_company_info (company_name : String) : CompanyInfo :=
  let company_lower := strLower company_name
  match findCompany companiesTable company_lower with
  | some info => info
  | none => genericCompanyInfo company_name

/-- Field mapping applied to the first provider item
(`get_company_info`, lines 49-59). -/
def mapCompanyItem (item : CompanyItem) (company_name : String) : CompanyInfo :=
  { name := item.name.getD company_name
    industry := item.industry.getD "Unknown"
    location := item.location.getD "Unknown"
    description := item.description.getD "No description available"
    website := item.website.getD ""
    linkedin_url := item.linkedin_url.getD ""
    logo_url := item.logo_url.getD ""
    employees := some (item.employees.getD (.vdict [])) }

/-- `LinkedInRapidAPIClient.get_company_info` (lines 28-70), as a
function of the outcome of its single HTTP request.  Every branch of the
source returns a record: a mapped item on a 200 response with non-empty
items, and `_get_fallback_company_info` on empty items, non-200 status,
or a raised exception; `None` is never returned. -/
def get_company_info (resp : CompanyResp) (company_name : String) : CompanyInfo :=
  match resp with
  | .ok (item :: _) => mapCompanyItem item company_name
  | .ok [] => get_fallback_company_info company_name
  | .badStatus _ => get_fallback_company_info company_name
  | .exc _ => get_fallback_company_info company_name

/-- Element of a raw `expertise` collection as delivered by the people
provider.  `search_people` (line 109) copies the provider value through
unvalidated, so a non-string element is possible; it carries the Python
type name (used in the `TypeError` raised by `", ".join`) and its JSON
encoding (used by `json.dumps` at the persistence boundary). -/
inductive EVal where
  | estr (s : String) : EVal
  | eother (typeName : String) (jsonEnc : String) : EVal
deriving DecidableEq, Repr

/-- A profile as constructed by `search_people` (lines 101-111).  The
string fields are modelled already mapped (the `.get` defaults of the
source make them total); `expertise` is kept raw, see `EVal`. -/
structure Profile where
  name : String
  title : String
  company : String
  location : String
  linkedin_url : String
  image_url : String
  expertise : List EVal
deriving DecidableEq, Repr

/-- Outcome of the HTTP request issued by `search_people`: a 200
response with its (possibly empty or missing) `items` collection, a
non-200 status, or a raised exception. -/
inductive PeopleResp where
  | ok (items : List Profile) : PeopleResp
  | badStatus (code : Nat) : PeopleResp
  | exc (e : Exc) : PeopleResp
deriving DecidableEq, Repr

/-! ## `simple_linkedin_agent.py`: query analysis -/

/-- The structured extraction `_analyze_query` asks the LLM for:
keys `company`, `roles`, `technologies` (lines 237-240, 259-263). -/
structure QueryAnalysis where
  company : Option String
  roles : List String
  technologies : List String
deriving DecidableEq, Repr

/-- The value `json.loads` produces from the analysis LLM response.
`json.loads` can yield any JSON value; `research` then calls `.get` on
it (lines 116-118), which raises `AttributeError` when the value is not
an object.  `jsonNonObject` records the Python type name of such a
value. -/
inductive ParsedJson where
  | jsonObject (a : QueryAnalysis) : ParsedJson
  | jsonNonObject (typeName : String) : ParsedJson
deriving DecidableEq, Repr

/-- The oracle environment for one pipeline run: the outcome of each
outbound call the run can make.  The people and company provider
responses are keyed by the request data actually sent; the LLM
responses for query analysis and insight generation are per-run values
(their prompts are injective in the data they embed), while the summary
LLM response is keyed by its prompt because claim C4 concerns that
prompt. -/
structure Env where
  interpretResp : Except Exc ParsedJson
  companyResp : String → CompanyResp
  peopleResp : String → PeopleResp
  insightsResp : Except Exc (List String)
  summaryResp : String → Except Exc String

/-- `LinkedInRapidAPIClient.search_people` (lines 72-124), as a function
of the provider response to the `search_term` it builds.  The source
maps each raw item field-by-field with total defaults (identity on this
typed model) and returns `[]` on empty items, non-200 status, or a
raised exception. -/
def search_people (env : Env) (query : String) (company : Option String) : List Profile :=
  let query_str :=
    match company with
    | some c => if c == "" then query else query ++ " at " ++ c
    | none => query
  match env.peopleResp query_str with
  | .ok items => items
  | .badStatus _ => []
  | .exc _ => []

/-! ## `simple_linkedin_agent.py`: steps -/

/-- `ResearchStep` (`simple_linkedin_agent.py` lines 24-55).  Timestamps
are ticks of the run's strictly monotone clock (`datetime.now()` calls);
`start_time` is always set by `__init__`, `end_time` only by
`complete`.  `confidence` is a rational in place of the Python float. -/
structure ResearchStep where
  description : String
  reasoning : Option String
  status : String
  result : Option PyVal
  start_time : Int
  end_time : Option Int
  confidence : Option ℚ

/-- `ResearchStep.__init__` (lines 27-41): a fresh step, in progress. -/
def mkResearchStep (description : String) (reasoning : Option String) (t : Int) : ResearchStep :=
  { description := description
    reasoning := reasoning
    status := "in_progress"
    result := none
    start_time := t
    end_time := none
    confidence := none }

/-- `ResearchStep.complete` (lines 43-55). -/
def ResearchStep.complete (s : ResearchStep) (success : Bool) (result : Option PyVal)
    (confidence : Option ℚ) (t : Int) : ResearchStep :=
  { s with
    status := if success then "completed" else "failed"
    result := result
    end_time := some t
    confidence := confidence }

/-- The external dictionary shape produced by `ResearchStep.to_dict`
(lines 57-72).  The `isoformat` rendering of the two timestamps is kept
as the tick values themselves. -/
structure StepDict where
  description : String
  reasoning : Option String
  status : String
  result : Option PyVal
  start_time : Int
  end_time : Option Int
  duration : Option Int
  confidence : Option ℚ

/-- `ResearchStep.to_dict` (lines 57-72): `duration` is
`end_time - start_time` when both timestamps are present (`start_time`
always is) and `None` otherwise. -/
def ResearchStep.to_dict (s : ResearchStep) : StepDict :=
  { description := s.description
    reasoning := s.reasoning
    status := s.status
    result := s.result
    start_time := s.start_time
    end_time := s.end_time
    duration :=
      match s.end_time with
      | some e => some (e - s.start_time)
      | none => none
    confidence := s.confidence }

/-! ## `simple_linkedin_agent.py`: the LLM-backed helpers -/

/-- `LinkedInResearchAgent._analyze_query` (lines 229-263), as a
function of the outcome of its single LLM call (`.error` covers a call
failure, timeout, or a `json.loads` parse failure, all caught by the
`except` at line 256).  On failure it deterministically returns
`{company: None, roles: [query], technologies: []}` and never raises. -/
def analyze_query (resp : Except Exc ParsedJson) (query : String) : ParsedJson :=
  match resp with
  | .error _ => .jsonObject { company := none, roles := [query], technologies := [] }
  | .ok v => v

/-- Python `", ".join(expertise)` over a raw expertise collection
(lines 275 and 328): succeeds with the joined string when every element
is a string, raises `TypeError` at the first non-string element. -/
def joinEVals : List EVal → Except Exc (List String)
  | [] => .ok []
  | .estr s :: rest =>
    match joinEVals rest with
    | .ok ss => .ok (s :: ss)
    | .error e => .error e
  | .eother typeName _ :: _ =>
    .error { msg := "sequence item: expected str instance, " ++ typeName ++ " found" }

/-- The per-profile text block built by `_generate_insights`
(lines 270-276) and `_create_summary` (lines 323-329); raises the
`TypeError` of the expertise join when an expertise element is not a
string. -/
def formatProfileText (i : Nat) (p : Profile) : Except Exc String :=
  match joinEVals p.expertise with
  | .error e => .error e
  | .ok parts =>
    .ok (toString i ++ ". " ++ p.name ++ "\n"
      ++ "   Title: " ++ p.title ++ "\n"
      ++ "   Company: " ++ p.company ++ "\n"
      ++ "   Location: " ++ p.location ++ "\n"
      ++ "   Expertise: " ++ ", ".intercalate parts ++ "\n")

/-- The `profiles_text` list of both formatting loops (`enumerate`
starting at 1); the first raising profile propagates its exception. -/
def formatProfilesText (profiles : List Profile) : Except Exc (List String) :=
  let rec go (i : Nat) : List Profile → Except Exc (List String)
    | [] => .ok []
    | p :: rest =>
      match formatProfileText i p with
      | .error e => .error e
      | .ok t =>
        match go (i + 1) rest with
        | .error e => .error e
        | .ok ts => .ok (t :: ts)
  go 1 profiles

/-- `LinkedInResearchAgent._generate_insights` (lines 265-317).  The
profile formatting (before the `try`) can raise; the LLM call and the
parsing of its response sit inside the `try`, whose handler returns the
one-element placeholder list.  The oracle `insightsResp` stands for the
call-plus-parse-plus-extraction of lines 295-313. -/
def generate_insights (env : Env) (profiles : List Profile)
    (_company : Option String) (_roles : List String) : Except Exc (List String) :=
  match formatProfilesText profiles with
  | .error e => .error e
  | .ok _ =>
    match env.insightsResp with
    | .error _ => .ok ["Unable to generate insights due to an error."]
    | .ok insights => .ok insights

/-- The `company_text` block of `_create_summary` (lines 332-340):
empty when no company record is held, else the indented
triple-quoted section. -/
def summaryCompanyText (company_info : Option CompanyInfo) : String :=
  match company_info with
  | some ci =>
      "\n            Company Information:\n            Name: " ++ ci.name
      ++ "\n            Industry: " ++ ci.industry
      ++ "\n            Location: " ++ ci.location
      ++ "\n            Description: " ++ ci.description
      ++ "\n            "
  | none => ""

/-- The `insights_text` block of `_create_summary` (line 343). -/
def summaryInsightsText (insights : List String) : String :=
  "\n".intercalate (insights.map (fun i => "- " ++ i))

/-- The prompt assembled by `_create_summary` (lines 331-367) from the
query, the optional company record, the formatted profile blocks
(already capped at five by the caller) and the insights. -/
def create_summary_prompt (query : String) (company_info : Option CompanyInfo)
    (profiles_text : List String) (insights : List String) : String :=
  let company_text := summaryCompanyText company_info
  let insights_text := summaryInsightsText insights
  "Create a comprehensive LinkedIn research summary based on the following:\n\n"
  ++ ("Original Query:\n" ++ query ++ "\n\n")
  ++ (if company_text == "" then "" else company_text ++ "\n\n")
  ++ (if profiles_text.isEmpty then
        "Professionals Found:\nNo profiles found.\n\n"
      else
        "Professionals Found:\n" ++ "\n".intercalate profiles_text ++ "\n\n")
  ++ (if insights_text == "" then "Insights:\nNo insights available.\n\n"
      else "Insights:\n" ++ insights_text ++ "\n\n")
  ++ "Create a detailed research summary in Markdown format that includes:\n"
  ++ "1. A summary of the research request\n"
  ++ "2. Company overview (if applicable)\n"
  ++ "3. Key professionals found\n"
  ++ "4. Patterns and insights\n"
  ++ "5. Recommendations for networking or further research\n\n"
  ++ "Make the summary actionable and insightful for a business professional."

/-- `LinkedInResearchAgent._create_summary` (lines 319-382).  The
formatting of the first five profiles (before the `try`) can raise; the
LLM call sits inside the `try`, whose handler returns the placeholder
string.  On success the returned summary is the LLM response content,
verbatim. -/
def create_summary (env : Env) (query : String) (profiles : List Profile)
    (company_info : Option CompanyInfo) (insights : List String) : Except Exc String :=
  match formatProfilesText (profiles.take 5) with
  | .error e => .error e
  | .ok profiles_text =>
    let prompt := create_summary_prompt query company_info profiles_text insights
    match env.summaryResp prompt with
    | .error _ => .ok "Unable to generate a summary due to an error."
    | .ok content => .ok content

/-! ## `simple_linkedin_agent.py`: the pipeline -/

/-- The mutable state of one `LinkedInResearchAgent` run
(`__init__`, lines 81-88), plus the run clock and a log of the
`search_people` invocations `research` makes (each entry is the
`(query, company)` argument pair of one call). -/
structure AgentState where
  steps : List ResearchStep
  profiles : List Profile
  insights : List String
  company_info : Option CompanyInfo
  summary : Option String
  searchCalls : List (String × Option String)
  clock : Nat

/-- Append a step that is begun and completed with no raisable work in
between (`_add_step` immediately followed by `complete`); the begin and
the complete each consume one clock tick. -/
def addCompleted (st : AgentState) (description : String) (reasoning : Option String)
    (success : Bool) (result : Option PyVal) : AgentState :=
  { st with
    steps := st.steps
      ++ [(mkResearchStep description reasoning (st.clock : Int)).complete
            success result none ((st.clock + 1 : Nat) : Int)]
    clock := st.clock + 2 }

/-- Append a step that has been begun (`_add_step`) but whose stage then
raised before `complete` could run; the step stays `in_progress`. -/
def addPending (st : AgentState) (description : String) (reasoning : Option String) : AgentState :=
  { st with
    steps := st.steps ++ [mkResearchStep description reasoning (st.clock : Int)]
    clock := st.clock + 1 }

/-- Stage 1 of `research` (lines 100-106): the initial state after the
trivially successful init step. -/
def stageInit : AgentState :=
  addCompleted
    { steps := [], profiles := [], insights := [], company_info := none,
      summary := none, searchCalls := [], clock := 0 }
    "Initializing LinkedIn research"
    (some "Setting up the research process and preparing API connections.")
    true none

/-- Stage 2 of `research` (lines 108-124): query analysis.  The `.get`
field accesses at lines 116-118 raise when the parsed LLM response is
not a JSON object; the begun analysis step is then left in progress and
the exception propagates to the top-level handler. -/
def stageAnalyze (env : Env) (query : String) (st : AgentState) :
    Except (AgentState × String) (AgentState × QueryAnalysis) :=
  match analyze_query env.interpretResp query with
  | .jsonNonObject typeName =>
    .error
      (addPending st "Analyzing query"
        (some "Breaking down the query to identify companies, roles, and technologies."),
       "AttributeError: " ++ typeName ++ " object has no attribute get")
  | .jsonObject a =>
    .ok
      (addCompleted st "Analyzing query"
        (some "Breaking down the query to identify companies, roles, and technologies.")
        true
        (some (.vdict
          [("company", match a.company with | some c => .vstr c | none => .vnull),
           ("roles", .vlist (a.roles.map (fun r => .vstr r))),
           ("technologies", .vlist (a.technologies.map (fun t => .vstr t)))])),
       a)

/-- Python truthiness of the company dict returned by
`get_company_info` (`if company_info:` at line 135): every record the
client returns renders as a non-empty dict, so the test is always
true; the source's `else` branch (line 138-141) is kept below it. -/
def companyDictTruthy (_info : CompanyInfo) : Bool := true

/-- Stage 3 of `research` (lines 126-141): company lookup, performed
only when the extracted company name is truthy.  `get_company_info`
never raises (it catches every exception internally). -/
def stageCompany (env : Env) (company : Option String) (st : AgentState) : AgentState :=
  match company with
  | none => st
  | some name =>
    if name == "" then st
    else
      let info := get_company_info (env.companyResp name) name
      if companyDictTruthy info then
        { addCompleted st ("Researching company: " ++ name)
            (some ("Gathering information about " ++ name ++ " from LinkedIn."))
            true (some (.vdict
              ([("name", .vstr info.name), ("industry", .vstr info.industry),
                ("location", .vstr info.location), ("description", .vstr info.description),
                ("website", .vstr info.website), ("linkedin_url", .vstr info.linkedin_url),
                ("logo_url", .vstr info.logo_url)]
               ++ (match info.employees with
                   | some e => [("employees", e)]
                   | none => []))))
          with company_info := some info }
      else
        addCompleted st ("Researching company: " ++ name)
          (some ("Gathering information about " ++ name ++ " from LinkedIn."))
          false (some (.vdict
            [("error", .vstr ("Could not find verified information for " ++ name))]))

/-- The primary search term (line 150): the first extracted role when
the roles list is non-empty, else the raw query. -/
def primarySearchQuery (query : String) (qa : QueryAnalysis) : String :=
  match qa.roles with | [] => query | r :: _ => r

/-- The company argument of the primary `search_people` call
(lines 153-156): the extracted company name when truthy, else absent. -/
def primaryOrgArg (qa : QueryAnalysis) : Option String :=
  if strOptTruthy qa.company then qa.company else none

/-- Stage 4 of `research` (lines 143-176): the people search with its
single broader-search fallback.  `search_people` never raises. -/
def stageSearch (env : Env) (query : String) (qa : QueryAnalysis) (st : AgentState) : AgentState :=
  let search_query := primarySearchQuery query qa
  let orgArg := primaryOrgArg qa
  let st := { st with searchCalls := st.searchCalls ++ [(search_query, orgArg)] }
  let profiles := search_people env search_query orgArg
  match profiles with
  | _ :: _ =>
    { addCompleted st "Searching for professionals"
        (some "Finding relevant professionals based on query criteria.")
        true (some (.vdict [("profiles_found", .vint profiles.length)]))
      with profiles := profiles }
  | [] =>
    let st := addCompleted st "Searching for professionals"
      (some "Finding relevant professionals based on query criteria.")
      false (some (.vdict [("error", .vstr "No matching profiles found")]))
    let st := { st with searchCalls := st.searchCalls ++ [(query, none)] }
    let fallback_profiles := search_people env query none
    match fallback_profiles with
    | _ :: _ =>
      { addCompleted st "Attempting broader search"
          (some "Initial search returned no results. Trying with broader criteria.")
          true (some (.vdict [("profiles_found", .vint fallback_profiles.length)]))
        with profiles := fallback_profiles }
    | [] =>
      addCompleted st "Attempting broader search"
        (some "Initial search returned no results. Trying with broader criteria.")
        false (some (.vdict [("error", .vstr "No profiles found in fallback search")]))

/-- Stage 5 of `research` (lines 178-187): insight generation, only
when at least one profile was found.  The profile formatting inside
`_generate_insights` can raise before its `try`, leaving the begun
insight step in progress. -/
def stageInsights (env : Env) (qa : QueryAnalysis) (st : AgentState) :
    Except (AgentState × String) AgentState :=
  match st.profiles with
  | [] => .ok st
  | _ :: _ =>
    match generate_insights env st.profiles qa.company qa.roles with
    | .error e =>
      .error
        (addPending st "Analyzing professional profiles"
          (some "Examining profiles to identify patterns and insights."),
         e.msg)
    | .ok insights =>
      .ok
        { addCompleted st "Analyzing professional profiles"
            (some "Examining profiles to identify patterns and insights.")
            true (some (.vdict [("insights_generated", .vint insights.length)]))
          with insights := insights }

/-- Stage 6 of `research` (lines 189-197): summary composition, always
reached on the non-raising path.  The profile formatting inside
`_create_summary` can raise before its `try`, leaving the begun summary
step in progress. -/
def stageSummary (env : Env) (query : String) (st : AgentState) :
    Except (AgentState × String) AgentState :=
  match create_summary env query st.profiles st.company_info st.insights with
  | .error e =>
    .error
      (addPending st "Creating research summary"
        (some "Synthesizing findings into a comprehensive research summary."),
       e.msg)
  | .ok s =>
    .ok
      { addCompleted st "Creating research summary"
          (some "Synthesizing findings into a comprehensive research summary.")
          true none
        with summary := some s }

/-- The body of the `try` block of `LinkedInResearchAgent.research`
(lines 100-207): the fixed stage sequence, with an exception carrying
the state accumulated so far (including any step left in progress) and
the exception message. -/
def researchBody (env : Env) (query : String) :
    Except (AgentState × String) AgentState :=
  match stageAnalyze env query stageInit with
  | .error p => .error p
  | .ok (st1, qa) =>
    match stageInsights env qa (stageSearch env query qa (stageCompany env qa.company st1)) with
    | .error p => .error p
    | .ok st4 =>
      match stageSummary env query st4 with
      | .error p => .error p
      | .ok st5 => .ok st5

/-- The value `research` returns.  The success dictionary (lines
200-207) carries `query`, serialized `steps`, `company`, `profiles`,
`insights` and `summary`; the error dictionary (lines 217-221) carries
only `query`, serialized `steps` and `error` — it has no `profiles` or
`insights` keys. -/
inductive ResearchResult where
  | success (query : String) (steps : List StepDict) (company : Option CompanyInfo)
      (profiles : List Profile) (insights : List String) (summary : String) : ResearchResult
  | failure (query : String) (steps : List StepDict) (error : String) : ResearchResult

/-- `LinkedInResearchAgent.research` (lines 90-221), returning the
final agent state together with the result dictionary.  The top-level
handler (lines 209-221) appends one failed error step carrying the
exception message and returns the error dictionary; it does not retry
the run. -/
def research (env : Env) (query : String) : AgentState × ResearchResult :=
  match researchBody env query with
  | .ok st =>
    (st, .success query (st.steps.map ResearchStep.to_dict) st.company_info
      st.profiles st.insights (st.summary.getD ""))
  | .error (st, msg) =>
    let st := addCompleted st "Error in research process"
      (some ("An error occurred: " ++ msg))
      false (some (.vdict [("error_message", .vstr msg)]))
    (st, .failure query (st.steps.map ResearchStep.to_dict) msg)

/-- The serialized step trace carried by either result shape. -/
def ResearchResult.stepDicts : ResearchResult → List StepDict
  | .success _ steps _ _ _ _ => steps
  | .failure _ steps _ => steps

/-- The `error` marker of a result: present exactly on the error
dictionary (`"error" in results` in `app.py`). -/
def ResearchResult.errorField : ResearchResult → Option String
  | .success _ _ _ _ _ _ => none
  | .failure _ _ e => some e

/-- The `profiles` collection of a result, `none` when the dictionary
has no such key (the error shape). -/
def ResearchResult.profilesField : ResearchResult → Option (List Profile)
  | .success _ _ _ p _ _ => some p
  | .failure _ _ _ => none

/-- The `insights` collection of a result, `none` when the dictionary
has no such key (the error shape). -/
def ResearchResult.insightsField : ResearchResult → Option (List String)
  | .success _ _ _ _ i _ => some i
  | .failure _ _ _ => none

/-- The `summary` of a result, `none` when the dictionary has no such
key (the error shape). -/
def ResearchResult.summaryField : ResearchResult → Option String
  | .success _ _ _ _ _ s => some s
  | .failure _ _ _ => none

/-- Number of steps still `in_progress` in a serialized trace. -/
def countInProgress (steps : List StepDict) : Nat :=
  (steps.filter (fun d => d.status == "in_progress")).length

/-! ## `app.py`: the task runner -/

/-- The text `str(value)` produces for a scalar step result, used by
`run_research_task` when the result is neither a dict nor a list
(`app.py` line 122).  The dict/list cases never reach this function
(they are serialized with `json.dumps`), and the `None` case is
excluded by the `is not None` guard at line 118. -/
def pyStrScalar : PyVal → String
  | .vnull => "None"
  | .vbool b => if b then "True" else "False"
  | .vint n => toString n
  | .vstr s => s
  | .vlist items => json_dumps (.vlist items)
  | .vdict fields => json_dumps (.vdict fields)

/-- The serialization `run_research_task` applies to a non-`None` step
result (lines 118-122): `json.dumps` for a dict or a list, `str`
otherwise. -/
def serialize_step_result : PyVal → String
  | .vdict fields => json_dumps (.vdict fields)
  | .vlist items => json_dumps (.vlist items)
  | v => pyStrScalar v

/-- A persisted `ResearchStep` row as filled in by `run_research_task`
(lines 108-124).  The serialized step dictionary always carries the
`description`, `reasoning`, `status`, `confidence` and `duration` keys,
so the `.get` defaults for them are dead; the `type` key is absent from
`ResearchStep.to_dict`, so its default `"analysis"` is always taken. -/
structure StepRow where
  type : String
  description : String
  reasoning : Option String
  status : String
  confidence : Option ℚ
  duration : Option Int
  result : Option String

/-- Conversion of one serialized step into its durable row. -/
def stepToRow (d : StepDict) : StepRow :=
  { type := "analysis"
    description := d.description
    reasoning := d.reasoning
    status := d.status
    confidence := d.confidence
    duration := d.duration
    result :=
      match d.result with
      | none => none
      | some v => some (serialize_step_result v) }

/-- JSON encoding of a raw expertise collection (`json.dumps` at
`app.py` line 138); provider-delivered values are JSON-serializable. -/
def jsonDumpsExpertise (l : List EVal) : String :=
  "[" ++ ", ".intercalate (l.map (fun e =>
    match e with
    | .estr s => jsonStr s
    | .eother _ enc => enc)) ++ "]"

/-- A persisted `LinkedInProfile` row as filled in by
`run_research_task` (lines 126-140); `expertise` is stored only when
the list is non-empty (Python truthiness at line 137). -/
structure ProfileRow where
  name : String
  title : String
  company : String
  location : String
  linkedin_url : String
  image_url : String
  expertise : Option String

/-- Conversion of one profile into its durable row. -/
def profileToRow (p : Profile) : ProfileRow :=
  { name := p.name
    title := p.title
    company := p.company
    location := p.location
    linkedin_url := p.linkedin_url
    image_url := p.image_url
    expertise :=
      match p.expertise with
      | [] => none
      | l => some (jsonDumpsExpertise l) }

/-- What `run_research_task` leaves behind for one pipeline result: the
record's final status and summary, and the persisted step, profile and
insight rows. -/
structure RunnerOutcome where
  status : String
  summary : String
  steps : List StepRow
  profiles : List ProfileRow
  insights : List String

/-- The result-processing part of `run_research_task`
(`app.py` lines 96-150): if the pipeline result carries the `error`
key, the record is flipped to `failed` with a summary derived from the
error message and the function returns before persisting anything;
otherwise the record is flipped to `completed`, the narrative summary
is stored, and every returned step, profile and insight is converted
into a durable row. -/
def run_research_task_process (results : ResearchResult) : RunnerOutcome :=
  match results with
  | .failure _ _ e =>
    { status := "failed"
      summary := "Research failed: " ++ e
      steps := []
      profiles := []
      insights := [] }
  | .success _ steps _ profiles insights summary =>
    { status := "completed"
      summary := summary
      steps := steps.map stepToRow
      profiles := profiles.map profileToRow
      insights := insights }

/-- Responses on which `get_company_info` takes a fallback branch:
a 200 response with empty or missing items, a non-200 status, or a
raised exception. -/
def CompanyResp.isFailureLike : CompanyResp → Bool
  | .ok [] => true
  | .ok (_ :: _) => false
  | .badStatus _ => true
  | .exc _ => true

/-- Number of `in_progress` entries in a raw step list. -/
def cipList (l : List ResearchStep) : Nat :=
  (l.filter (fun s => s.status == "in_progress")).length

/-- Number of broader-search steps in a raw step list. -/
def countBroader (l : List ResearchStep) : Nat :=
  (l.filter (fun s => s.description == "Attempting broader search")).length

/-! ## Concrete run fixtures -/

/-- A profile whose raw `expertise` collection contains a non-string
element, exactly as an unvalidated provider response can deliver it
(`search_people` copies `profile_data.get("expertise", [])` through
at `linkedin_rapidapi_client.py` line 109). -/
def badProfile : Profile :=
  { name := "A. Person", title := "Engineer", company := "Initech",
    location := "Austin, TX", linkedin_url := "", image_url := "",
    expertise := [.eother "int" "42"] }

/-- A well-formed profile (all expertise entries are strings). -/
def goodProfile : Profile :=
  { name := "B. Person", title := "Engineer", company := "Initech",
    location := "Austin, TX", linkedin_url := "", image_url := "",
    expertise := [.estr "Python"] }

/-- A run environment in which the analysis succeeds with one role and
no company, the primary people search returns `badProfile`, and the
remaining oracles are unexceptional.  The insight stage's profile
formatting then raises a `TypeError` on the non-string expertise
element, which only the top-level handler catches. -/
def envBadExpertise : Env :=
  { interpretResp := .ok (.jsonObject
      { company := none, roles := ["software engineer"], technologies := [] })
    companyResp := fun _ => .exc { msg := "network down" }
    peopleResp := fun s => if s == "software engineer" then .ok [badProfile] else .ok []
    insightsResp := .ok ["some insight"]
    summaryResp := fun _ => .ok "A summary." }

/-- A run environment for the empty query: the analysis LLM call fails
(deterministic fallback), every people search returns no items, and the
summary LLM returns the content `"All done."`. -/
def envEmptyQuery : Env :=
  { interpretResp := .error { msg := "api down" }
    companyResp := fun _ => .exc { msg := "network down" }
    peopleResp := fun _ => .ok []
    insightsResp := .ok ["some insight"]
    summaryResp := fun _ => .ok "All done." }

/-- A run environment in which the primary people search succeeds with
a well-formed profile but the insight-generation LLM call fails, and
the summary LLM then returns empty content. -/
def envInsightsDown : Env :=
  { interpretResp := .error { msg := "api down" }
    companyResp := fun _ => .exc { msg := "network down" }
    peopleResp := fun s => if s == "q" then .ok [goodProfile] else .ok []
    insightsResp := .error { msg := "llm down" }
    summaryResp := fun _ => .ok "" }

/-! ## General lemmas -/

/-- String append is associative (used to exhibit substring
decompositions of the summary prompt). -/
theorem strAppendAssoc (a b c : String) : (a ++ b) ++ c = a ++ (b ++ c) :=
  String.ext (by simp [String.data_append, List.append_assoc])

/-- When some table key matches, the table scan returns the first
matching entry's record. -/
theorem findCompany_mem_of_any (l : List (String × CompanyInfo)) (lower : String)
    (h : l.any (fun kv => matchesKey lower kv.fst) = true) :
    ∃ kv, kv ∈ l ∧ findCompany l lower = some kv.snd := by
  induction l with
  | nil => simp at h
  | cons hd tl ih =>
    obtain ⟨k, info⟩ := hd
    by_cases hm : matchesKey lower k = true
    · exact ⟨(k, info), by simp, by simp [findCompany, hm]⟩
    · have hm' : matchesKey lower k = false := by simpa using hm
      have h' : tl.any (fun kv => matchesKey lower kv.fst) = true := by
        simpa [hm'] using h
      obtain ⟨kv, hmem, hfind⟩ := ih h'
      exact ⟨kv, List.mem_cons_of_mem _ hmem, by simp [findCompany, hm', hfind]⟩

/-! ## Claim theorems -/

/-- C5: for every input query, when the LLM call of the query
interpreter fails, times out, or returns a non-parseable response
(all modelled by the `.error` outcome of the call-and-parse), the
interpreter returns exactly
`{company: null, roles: [original query], technologies: []}`; the
function is total, so this fallback path never propagates an exception
to the caller. -/
theorem analyze_query_fallback (q : String) (e : Exc) :
    analyze_query (.error e) q
      = .jsonObject { company := none, roles := [q], technologies := [] } := rfl

/-- C9: serializing a step with `to_dict` preserves `description`,
`reasoning`, `status` and `confidence`, and yields a `duration` equal
to `end_time - start_time` when both timestamps are present and `null`
when `end_time` is absent. -/
theorem step_to_dict_fields (s : ResearchStep) :
    s.to_dict.description = s.description
    ∧ s.to_dict.reasoning = s.reasoning
    ∧ s.to_dict.status = s.status
    ∧ s.to_dict.confidence = s.confidence
    ∧ (∀ e, s.end_time = some e → s.to_dict.duration = some (e - s.start_time))
    ∧ (s.end_time = none → s.to_dict.duration = none) := by
  refine ⟨rfl, rfl, rfl, rfl, ?_, ?_⟩
  · intro e he; simp [ResearchStep.to_dict, he]
  · intro he; simp [ResearchStep.to_dict, he]

/-- Witness for C9 at a concrete completed step. -/
theorem step_to_dict_fields_witness :
    ((mkResearchStep "d" (some "r") 2).complete true none none 5).end_time = some 5
    ∧ (((mkResearchStep "d" (some "r") 2).complete true none none 5).to_dict).duration
        = some 3 :=
  ⟨rfl,
   (step_to_dict_fields ((mkResearchStep "d" (some "r") 2).complete true none none 5)).2.2.2.2.1
     5 rfl⟩

/-- C6: on every fallback-taking provider outcome (error or empty
result) `get_company_info` returns the record of
`_get_fallback_company_info` — never an absent value (its Lean type is
total, mirroring the source, whose every branch returns a dict) — that
record is the substring-matched table record or, when no table entry
matches, the generic placeholder; and two calls for the same name under
any two fallback-taking outcomes return the identical record
(idempotence). -/
theorem get_company_info_never_absent (r₁ r₂ : CompanyResp) (name : String)
    (h₁ : r₁.isFailureLike = true) (h₂ : r₂.isFailureLike = true) :
    get_company_info r₁ name = get_fallback_company_info name
    ∧ get_company_info r₁ name = get_company_info r₂ name
    ∧ (findCompany companiesTable (strLower name) = none →
        get_company_info r₁ name = genericCompanyInfo name) := by
  have e₁ : get_company_info r₁ name = get_fallback_company_info name := by
    cases r₁ with
    | ok items =>
      cases items with
      | nil => rfl
      | cons a t => simp [CompanyResp.isFailureLike] at h₁
    | badStatus c => rfl
    | exc e => rfl
  have e₂ : get_company_info r₂ name = get_fallback_company_info name := by
    cases r₂ with
    | ok items =>
      cases items with
      | nil => rfl
      | cons a t => simp [CompanyResp.isFailureLike] at h₂
    | badStatus c => rfl
    | exc e => rfl
  refine ⟨e₁, by rw [e₁, e₂], ?_⟩
  intro hnone
  rw [e₁]
  simp [get_fallback_company_info, hnone]

/-- Witness for C6: a provider exception and an empty result for the
unmatched name `"Zscaler"` both yield the identical generic
placeholder. -/
theorem get_company_info_never_absent_witness :
    (CompanyResp.exc { msg := "boom" }).isFailureLike = true
    ∧ (CompanyResp.ok []).isFailureLike = true
    ∧ findCompany companiesTable (strLower "Zscaler") = none
    ∧ get_company_info (.exc { msg := "boom" }) "Zscaler" = genericCompanyInfo "Zscaler"
    ∧ get_company_info (.exc { msg := "boom" }) "Zscaler"
        = get_company_info (.ok []) "Zscaler" := by
  refine ⟨rfl, rfl, rfl, ?_, ?_⟩
  · exact (get_company_info_never_absent (.exc { msg := "boom" }) (.ok []) "Zscaler"
      rfl rfl).2.2 rfl
  · exact (get_company_info_never_absent (.exc { msg := "boom" }) (.ok []) "Zscaler"
      rfl rfl).2.1

/-- C10: the fallback table match is a bidirectional substring test —
whenever the lowercased name contains a table key or is contained in
one, `_get_fallback_company_info` returns a well-known table record
(whose `industry` is never the generic `"Unknown"`), not the generic
placeholder; in particular the empty string matches every key, so name
`""` yields the built-in Google record, and `"soft"` yields the
Microsoft record. -/
theorem fallback_substring_match (name : String)
    (h : companiesTable.any (fun kv => matchesKey (strLower name) kv.fst) = true) :
    (∃ kv, kv ∈ companiesTable
        ∧ get_fallback_company_info name = kv.snd
        ∧ kv.snd.industry ≠ "Unknown")
    ∧ get_fallback_company_info "" = googleInfo
    ∧ get_fallback_company_info "soft" = microsoftInfo := by
  refine ⟨?_, rfl, rfl⟩
  obtain ⟨kv, hmem, hfind⟩ := findCompany_mem_of_any companiesTable (strLower name) h
  refine ⟨kv, hmem, by simp [get_fallback_company_info, hfind], ?_⟩
  simp [companiesTable] at hmem
  rcases hmem with rfl | rfl | rfl | rfl | rfl <;> decide

/-- Witness for C10 at the name `"soft"` (contained in the key
`"microsoft"`). -/
theorem fallback_substring_match_witness :
    companiesTable.any (fun kv => matchesKey (strLower "soft") kv.fst) = true
    ∧ (∃ kv, kv ∈ companiesTable
        ∧ get_fallback_company_info "soft" = kv.snd
        ∧ kv.snd.industry ≠ "Unknown") :=
  ⟨rfl, (fallback_substring_match "soft" rfl).1⟩

/-- C8: the task runner flips the record to `failed` with a summary
derived from the error message exactly when the pipeline result carries
the top-level `error` marker; otherwise it flips the record to
`completed`, stores the narrative summary, persists every returned
step, profile and insight, and serializes a dict or list step result
with the stable JSON encoding and any other non-null result with its
string form. -/
theorem run_research_task_transitions (res : ResearchResult) :
    ((run_research_task_process res).status = "failed" ↔ res.errorField.isSome)
    ∧ (∀ q st e, res = .failure q st e →
        (run_research_task_process res).summary = "Research failed: " ++ e
        ∧ (run_research_task_process res).steps = []
        ∧ (run_research_task_process res).profiles = []
        ∧ (run_research_task_process res).insights = [])
    ∧ (∀ q st c p i s, res = .success q st c p i s →
        (run_research_task_process res).status = "completed"
        ∧ (run_research_task_process res).summary = s
        ∧ (run_research_task_process res).steps = st.map stepToRow
        ∧ (run_research_task_process res).profiles = p.map profileToRow
        ∧ (run_research_task_process res).insights = i)
    ∧ (∀ fields, serialize_step_result (.vdict fields) = json_dumps (.vdict fields))
    ∧ (∀ items, serialize_step_result (.vlist items) = json_dumps (.vlist items))
    ∧ (∀ s, serialize_step_result (.vstr s) = s)
    ∧ (∀ n, serialize_step_result (.vint n) = toString n)
    ∧ (∀ d, (stepToRow d).result = d.result.map serialize_step_result) := by
  refine ⟨?_, ?_, ?_, fun _ => rfl, fun _ => rfl, fun _ => rfl, fun _ => rfl, ?_⟩
  · cases res <;> simp [run_research_task_process, ResearchResult.errorField]
  · intro q st e hres
    cases res <;> simp_all [run_research_task_process]
  · intro q st c p i s hres
    cases res <;> simp_all [run_research_task_process]
  · intro d
    cases hd : d.result <;> simp [stepToRow, hd]

/-- Witness for C8 at a concrete failure result. -/
theorem run_research_task_transitions_witness :
    (ResearchResult.failure "q" [] "boom").errorField.isSome = true
    ∧ (run_research_task_process (.failure "q" [] "boom")).summary
        = "Research failed: boom"
    ∧ (run_research_task_process (.failure "q" [] "boom")).steps = [] :=
  ⟨rfl,
   ((run_research_task_transitions (.failure "q" [] "boom")).2.1 "q" [] "boom" rfl).1,
   ((run_research_task_transitions (.failure "q" [] "boom")).2.1 "q" [] "boom" rfl).2.1⟩

/-! ## State invariant lemmas for the pipeline -/

theorem addCompleted_steps (st : AgentState) (d : String) (r : Option String)
    (b : Bool) (res : Option PyVal) :
    (addCompleted st d r b res).steps
      = st.steps
        ++ [(mkResearchStep d r (st.clock : Int)).complete b res none
              ((st.clock + 1 : Nat) : Int)] := rfl

theorem addCompleted_searchCalls (st : AgentState) (d : String) (r : Option String)
    (b : Bool) (res : Option PyVal) :
    (addCompleted st d r b res).searchCalls = st.searchCalls := rfl

theorem addCompleted_profiles (st : AgentState) (d : String) (r : Option String)
    (b : Bool) (res : Option PyVal) :
    (addCompleted st d r b res).profiles = st.profiles := rfl

theorem addPending_steps (st : AgentState) (d : String) (r : Option String) :
    (addPending st d r).steps
      = st.steps ++ [mkResearchStep d r (st.clock : Int)] := rfl

theorem addPending_searchCalls (st : AgentState) (d : String) (r : Option String) :
    (addPending st d r).searchCalls = st.searchCalls := rfl

theorem cipList_append (l₁ l₂ : List ResearchStep) :
    cipList (l₁ ++ l₂) = cipList l₁ + cipList l₂ := by
  simp [cipList, List.filter_append]

theorem cipList_addCompleted (st : AgentState) (d : String) (r : Option String)
    (b : Bool) (res : Option PyVal) :
    cipList (addCompleted st d r b res).steps = cipList st.steps := by
  cases b <;>
    simp [addCompleted, cipList, List.filter_append, mkResearchStep, ResearchStep.complete]

theorem cipList_addPending (st : AgentState) (d : String) (r : Option String) :
    cipList (addPending st d r).steps = cipList st.steps + 1 := by
  simp [addPending, cipList, List.filter_append, mkResearchStep]

theorem countInProgress_map_to_dict (l : List ResearchStep) :
    countInProgress (l.map ResearchStep.to_dict) = cipList l := by
  induction l with
  | nil => rfl
  | cons a t ih =>
    have hs : a.to_dict.status = a.status := rfl
    simp only [countInProgress, cipList, List.map_cons, List.filter_cons, hs] at *
    by_cases h : (a.status == "in_progress")
    · simp [h, ih]
    · simp [h, ih]

theorem cipList_stageInit : cipList stageInit.steps = 0 := by decide

theorem stageAnalyze_ok (env : Env) (q : String) (st st' : AgentState) (qa : QueryAnalysis)
    (h : stageAnalyze env q st = .ok (st', qa)) :
    cipList st'.steps = cipList st.steps
    ∧ st'.searchCalls = st.searchCalls
    ∧ st'.profiles = st.profiles := by
  unfold stageAnalyze at h
  cases ha : analyze_query env.interpretResp q with
  | jsonNonObject t => rw [ha] at h; simp at h
  | jsonObject a =>
    rw [ha] at h
    simp only [Except.ok.injEq, Prod.mk.injEq] at h
    obtain ⟨h1, _⟩ := h
    subst h1
    exact ⟨cipList_addCompleted .., rfl, rfl⟩

theorem stageAnalyze_error (env : Env) (q : String) (st st' : AgentState) (msg : String)
    (h : stageAnalyze env q st = .error (st', msg)) :
    cipList st'.steps = cipList st.steps + 1
    ∧ st'.searchCalls = st.searchCalls := by
  unfold stageAnalyze at h
  cases ha : analyze_query env.interpretResp q with
  | jsonObject a => rw [ha] at h; simp at h
  | jsonNonObject t =>
    rw [ha] at h
    simp only [Except.error.injEq, Prod.mk.injEq] at h
    obtain ⟨h1, _⟩ := h
    subst h1
    exact ⟨cipList_addPending .., rfl⟩

theorem stageCompany_invariants (env : Env) (c : Option String) (st : AgentState) :
    cipList (stageCompany env c st).steps = cipList st.steps
    ∧ (stageCompany env c st).searchCalls = st.searchCalls
    ∧ (stageCompany env c st).profiles = st.profiles := by
  cases c with
  | none => exact ⟨rfl, rfl, rfl⟩
  | some name =>
    by_cases h : (name == "")
    · simp [stageCompany, h]
    · simp [stageCompany, h, companyDictTruthy, cipList_addCompleted,
        addCompleted_searchCalls, addCompleted_profiles]

theorem stageSearch_cipList (env : Env) (q : String) (qa : QueryAnalysis) (st : AgentState) :
    cipList (stageSearch env q qa st).steps = cipList st.steps := by
  unfold stageSearch
  cases hp : search_people env (primarySearchQuery q qa) (primaryOrgArg qa) with
  | cons p ps => simp [hp, cipList_addCompleted]
  | nil =>
    cases hf : search_people env q none with
    | cons p ps => simp [hp, hf, cipList_addCompleted]
    | nil => simp [hp, hf, cipList_addCompleted]

theorem stageInsights_ok (env : Env) (qa : QueryAnalysis) (st st' : AgentState)
    (h : stageInsights env qa st = .ok st') :
    cipList st'.steps = cipList st.steps
    ∧ st'.searchCalls = st.searchCalls
    ∧ st'.profiles = st.profiles := by
  unfold stageInsights at h
  cases hp : st.profiles with
  | nil =>
    rw [hp] at h
    simp only [Except.ok.injEq] at h
    subst h
    exact ⟨rfl, rfl, hp⟩
  | cons p ps =>
    rw [hp] at h
    cases hg : generate_insights env (p :: ps) qa.company qa.roles with
    | error e => rw [hg] at h; simp at h
    | ok ins =>
      rw [hg] at h
      simp only [Except.ok.injEq] at h
      subst h
      exact ⟨cipList_addCompleted .., rfl, hp⟩

theorem stageInsights_error (env : Env) (qa : QueryAnalysis) (st st' : AgentState) (msg : String)
    (h : stageInsights env qa st = .error (st', msg)) :
    cipList st'.steps = cipList st.steps + 1
    ∧ st'.searchCalls = st.searchCalls := by
  unfold stageInsights at h
  cases hp : st.profiles with
  | nil => rw [hp] at h; simp at h
  | cons p ps =>
    rw [hp] at h
    cases hg : generate_insights env (p :: ps) qa.company qa.roles with
    | ok ins => rw [hg] at h; simp at h
    | error e =>
      rw [hg] at h
      simp only [Except.error.injEq, Prod.mk.injEq] at h
      obtain ⟨h1, _⟩ := h
      subst h1
      exact ⟨cipList_addPending .., rfl⟩

theorem stageSummary_ok (env : Env) (q : String) (st st' : AgentState)
    (h : stageSummary env q st = .ok st') :
    cipList st'.steps = cipList st.steps
    ∧ st'.searchCalls = st.searchCalls := by
  unfold stageSummary at h
  cases hc : create_summary env q st.profiles st.company_info st.insights with
  | error e => rw [hc] at h; simp at h
  | ok s =>
    rw [hc] at h
    simp only [Except.ok.injEq] at h
    subst h
    exact ⟨cipList_addCompleted .., rfl⟩

theorem stageSummary_error (env : Env) (q : String) (st st' : AgentState) (msg : String)
    (h : stageSummary env q st = .error (st', msg)) :
    cipList st'.steps = cipList st.steps + 1
    ∧ st'.searchCalls = st.searchCalls := by
  unfold stageSummary at h
  cases hc : create_summary env q st.profiles st.company_info st.insights with
  | ok s => rw [hc] at h; simp at h
  | error e =>
    rw [hc] at h
    simp only [Except.error.injEq, Prod.mk.injEq] at h
    obtain ⟨h1, _⟩ := h
    subst h1
    exact ⟨cipList_addPending .., rfl⟩

theorem stageInit_searchCalls : stageInit.searchCalls = [] := rfl

theorem stageSearch_searchCalls (env : Env) (q : String) (qa : QueryAnalysis) (st : AgentState) :
    (stageSearch env q qa st).searchCalls
      = st.searchCalls ++ [(primarySearchQuery q qa, primaryOrgArg qa)]
          ++ (if (search_people env (primarySearchQuery q qa) (primaryOrgArg qa)).isEmpty
              then [(q, none)] else []) := by
  unfold stageSearch
  cases hp : search_people env (primarySearchQuery q qa) (primaryOrgArg qa) with
  | cons p ps => simp [hp, addCompleted_searchCalls]
  | nil =>
    cases hf : search_people env q none with
    | cons p ps => simp [hp, hf, addCompleted_searchCalls]
    | nil => simp [hp, hf, addCompleted_searchCalls]

theorem stageSearch_searchCalls_len (env : Env) (q : String) (qa : QueryAnalysis)
    (st : AgentState) :
    (stageSearch env q qa st).searchCalls.length ≤ st.searchCalls.length + 2 := by
  rw [stageSearch_searchCalls]
  by_cases h : (search_people env (primarySearchQuery q qa) (primaryOrgArg qa)).isEmpty
  · simp [h]
  · simp [h]

theorem stageSearch_profiles (env : Env) (q : String) (qa : QueryAnalysis) (st : AgentState) :
    (stageSearch env q qa st).profiles
      = (if (search_people env (primarySearchQuery q qa) (primaryOrgArg qa)).isEmpty then
           (if (search_people env q none).isEmpty then st.profiles
            else search_people env q none)
         else search_people env (primarySearchQuery q qa) (primaryOrgArg qa)) := by
  unfold stageSearch
  cases hp : search_people env (primarySearchQuery q qa) (primaryOrgArg qa) with
  | cons p ps => simp [hp, addCompleted_profiles]
  | nil =>
    cases hf : search_people env q none with
    | cons p ps => simp [hp, hf, addCompleted_profiles]
    | nil => simp [hp, hf, addCompleted_profiles]

theorem countBroader_addCompleted (st : AgentState) (d : String) (r : Option String)
    (b : Bool) (res : Option PyVal) :
    countBroader (addCompleted st d r b res).steps
      = countBroader st.steps + (if (d == "Attempting broader search") then 1 else 0) := by
  by_cases hd : (d == "Attempting broader search") <;>
    cases b <;>
      simp [addCompleted, countBroader, List.filter_append, mkResearchStep,
        ResearchStep.complete, hd]

theorem stageSearch_countBroader (env : Env) (q : String) (qa : QueryAnalysis)
    (st : AgentState) :
    countBroader (stageSearch env q qa st).steps
      = countBroader st.steps
        + (if (search_people env (primarySearchQuery q qa) (primaryOrgArg qa)).isEmpty
           then 1 else 0) := by
  have hs : ("Searching for professionals" == "Attempting broader search") = false := by decide
  have hb : ("Attempting broader search" == "Attempting broader search") = true := by decide
  unfold stageSearch
  cases hp : search_people env (primarySearchQuery q qa) (primaryOrgArg qa) with
  | cons p ps => simp [hp, countBroader_addCompleted, hs]
  | nil =>
    cases hf : search_people env q none with
    | cons p ps => simp [hp, hf, countBroader_addCompleted, hs, hb]
    | nil => simp [hp, hf, countBroader_addCompleted, hs, hb]

theorem researchBody_ok_decompose (env : Env) (q : String) (st : AgentState)
    (h : researchBody env q = .ok st) :
    ∃ st1 qa st4,
      stageAnalyze env q stageInit = .ok (st1, qa)
      ∧ stageInsights env qa (stageSearch env q qa (stageCompany env qa.company st1)) = .ok st4
      ∧ stageSummary env q st4 = .ok st := by
  unfold researchBody at h
  cases ha : stageAnalyze env q stageInit with
  | error p => rw [ha] at h; simp at h
  | ok pr =>
    obtain ⟨st1, qa⟩ := pr
    rw [ha] at h
    simp only [] at h
    cases hi : stageInsights env qa (stageSearch env q qa (stageCompany env qa.company st1)) with
    | error p => rw [hi] at h; simp at h
    | ok st4 =>
      rw [hi] at h
      simp only [] at h
      cases hs : stageSummary env q st4 with
      | error p => rw [hs] at h; simp at h
      | ok st5 =>
        rw [hs] at h
        simp only [Except.ok.injEq] at h
        subst h
        exact ⟨st1, qa, st4, rfl, hi, hs⟩

theorem researchBody_ok_bounds (env : Env) (q : String) (st : AgentState)
    (h : researchBody env q = .ok st) :
    cipList st.steps = 0 ∧ st.searchCalls.length ≤ 2 := by
  obtain ⟨st1, qa, st4, ha, hi, hs⟩ := researchBody_ok_decompose env q st h
  have hA := stageAnalyze_ok env q stageInit st1 qa ha
  have hC := stageCompany_invariants env qa.company st1
  have hScip := stageSearch_cipList env q qa (stageCompany env qa.company st1)
  have hSlen := stageSearch_searchCalls_len env q qa (stageCompany env qa.company st1)
  have hI := stageInsights_ok env qa (stageSearch env q qa (stageCompany env qa.company st1)) st4 hi
  have hSum := stageSummary_ok env q st4 st hs
  have h0 : cipList stageInit.steps = 0 := cipList_stageInit
  have hsc : stageInit.searchCalls = [] := rfl
  constructor
  · rw [hSum.1, hI.1, hScip, hC.1, hA.1, h0]
  · rw [hSum.2, hI.2.1]
    rw [hC.2.1, hA.2.1, hsc] at hSlen
    simpa using hSlen

theorem researchBody_error_bounds (env : Env) (q : String) (st : AgentState) (msg : String)
    (h : researchBody env q = .error (st, msg)) :
    cipList st.steps = 1 ∧ st.searchCalls.length ≤ 2 := by
  have h0 : cipList stageInit.steps = 0 := cipList_stageInit
  have hsc : stageInit.searchCalls = [] := rfl
  unfold researchBody at h
  cases ha : stageAnalyze env q stageInit with
  | error p =>
    obtain ⟨est, emsg⟩ := p
    rw [ha] at h
    simp only [Except.error.injEq, Prod.mk.injEq] at h
    obtain ⟨h1, _⟩ := h
    have hA := stageAnalyze_error env q stageInit est emsg ha
    constructor
    · rw [← h1, hA.1, h0]
    · rw [← h1, hA.2, hsc]; simp
  | ok pr =>
    obtain ⟨st1, qa⟩ := pr
    rw [ha] at h
    simp only [] at h
    have hA := stageAnalyze_ok env q stageInit st1 qa ha
    have hC := stageCompany_invariants env qa.company st1
    have hScip := stageSearch_cipList env q qa (stageCompany env qa.company st1)
    have hSlen := stageSearch_searchCalls_len env q qa (stageCompany env qa.company st1)
    rw [hC.2.1, hA.2.1, hsc] at hSlen
    cases hi : stageInsights env qa (stageSearch env q qa (stageCompany env qa.company st1)) with
    | error p =>
      obtain ⟨est, emsg⟩ := p
      rw [hi] at h
      simp only [Except.error.injEq, Prod.mk.injEq] at h
      obtain ⟨h1, _⟩ := h
      have hI := stageInsights_error env qa
        (stageSearch env q qa (stageCompany env qa.company st1)) est emsg hi
      constructor
      · rw [← h1, hI.1, hScip, hC.1, hA.1, h0]
      · rw [← h1, hI.2]; simpa using hSlen
    | ok st4 =>
      rw [hi] at h
      simp only [] at h
      have hI := stageInsights_ok env qa
        (stageSearch env q qa (stageCompany env qa.company st1)) st4 hi
      cases hs : stageSummary env q st4 with
      | error p =>
        obtain ⟨est, emsg⟩ := p
        rw [hs] at h
        simp only [Except.error.injEq, Prod.mk.injEq] at h
        obtain ⟨h1, _⟩ := h
        have hSum := stageSummary_error env q st4 est emsg hs
        constructor
        · rw [← h1, hSum.1, hI.1, hScip, hC.1, hA.1, h0]
        · rw [← h1, hSum.2, hI.2.1]; simpa using hSlen
      | ok st5 => rw [hs] at h; simp at h

theorem research_ok_eq (env : Env) (q : String) (st : AgentState)
    (h : researchBody env q = .ok st) :
    research env q
      = (st, .success q (st.steps.map ResearchStep.to_dict) st.company_info
          st.profiles st.insights (st.summary.getD "")) := by
  unfold research
  rw [h]

theorem research_error_eq (env : Env) (q : String) (st : AgentState) (msg : String)
    (h : researchBody env q = .error (st, msg)) :
    research env q
      = (addCompleted st "Error in research process"
           (some ("An error occurred: " ++ msg)) false
           (some (.vdict [("error_message", .vstr msg)])),
         .failure q
           ((addCompleted st "Error in research process"
              (some ("An error occurred: " ++ msg)) false
              (some (.vdict [("error_message", .vstr msg)]))).steps.map
                ResearchStep.to_dict)
           msg) := by
  unfold research
  rw [h]

theorem stageAnalyze_error_steps (env : Env) (q : String) (st st' : AgentState) (msg : String)
    (h : stageAnalyze env q st = .error (st', msg)) :
    ∃ pending, st'.steps = st.steps ++ [pending] ∧ pending.status = "in_progress" := by
  unfold stageAnalyze at h
  cases ha : analyze_query env.interpretResp q with
  | jsonObject a => rw [ha] at h; simp at h
  | jsonNonObject t =>
    rw [ha] at h
    simp only [Except.error.injEq, Prod.mk.injEq] at h
    obtain ⟨h1, _⟩ := h
    exact ⟨mkResearchStep "Analyzing query"
      (some "Breaking down the query to identify companies, roles, and technologies.")
      (st.clock : Int), by rw [← h1]; rfl, rfl⟩

theorem stageInsights_error_steps (env : Env) (qa : QueryAnalysis) (st st' : AgentState)
    (msg : String) (h : stageInsights env qa st = .error (st', msg)) :
    ∃ pending, st'.steps = st.steps ++ [pending] ∧ pending.status = "in_progress" := by
  unfold stageInsights at h
  cases hp : st.profiles with
  | nil => rw [hp] at h; simp at h
  | cons p ps =>
    rw [hp] at h
    cases hg : generate_insights env (p :: ps) qa.company qa.roles with
    | ok ins => rw [hg] at h; simp at h
    | error e =>
      rw [hg] at h
      simp only [Except.error.injEq, Prod.mk.injEq] at h
      obtain ⟨h1, _⟩ := h
      exact ⟨mkResearchStep "Analyzing professional profiles"
        (some "Examining profiles to identify patterns and insights.")
        (st.clock : Int), by rw [← h1]; rfl, rfl⟩

theorem stageSummary_error_steps (env : Env) (q : String) (st st' : AgentState) (msg : String)
    (h : stageSummary env q st = .error (st', msg)) :
    ∃ pending, st'.steps = st.steps ++ [pending] ∧ pending.status = "in_progress" := by
  unfold stageSummary at h
  cases hc : create_summary env q st.profiles st.company_info st.insights with
  | ok sres => rw [hc] at h; simp at h
  | error e =>
    rw [hc] at h
    simp only [Except.error.injEq, Prod.mk.injEq] at h
    obtain ⟨h1, _⟩ := h
    exact ⟨mkResearchStep "Creating research summary"
      (some "Synthesizing findings into a comprehensive research summary.")
      (st.clock : Int), by rw [← h1]; rfl, rfl⟩

theorem researchBody_error_steps (env : Env) (q : String) (st : AgentState) (msg : String)
    (h : researchBody env q = .error (st, msg)) :
    ∃ pre pending, st.steps = pre ++ [pending] ∧ pending.status = "in_progress" := by
  unfold researchBody at h
  cases ha : stageAnalyze env q stageInit with
  | error p =>
    obtain ⟨est, emsg⟩ := p
    rw [ha] at h
    simp only [Except.error.injEq, Prod.mk.injEq] at h
    obtain ⟨h1, _⟩ := h
    obtain ⟨pending, hsteps, hpend⟩ := stageAnalyze_error_steps env q stageInit est emsg ha
    exact ⟨stageInit.steps, pending, by rw [← h1, hsteps], hpend⟩
  | ok pr =>
    obtain ⟨st1, qa⟩ := pr
    rw [ha] at h
    simp only [] at h
    cases hi : stageInsights env qa (stageSearch env q qa (stageCompany env qa.company st1)) with
    | error p =>
      obtain ⟨est, emsg⟩ := p
      rw [hi] at h
      simp only [Except.error.injEq, Prod.mk.injEq] at h
      obtain ⟨h1, _⟩ := h
      obtain ⟨pending, hsteps, hpend⟩ := stageInsights_error_steps env qa
        (stageSearch env q qa (stageCompany env qa.company st1)) est emsg hi
      exact ⟨(stageSearch env q qa (stageCompany env qa.company st1)).steps, pending,
        by rw [← h1, hsteps], hpend⟩
    | ok st4 =>
      rw [hi] at h
      simp only [] at h
      cases hs : stageSummary env q st4 with
      | error p =>
        obtain ⟨est, emsg⟩ := p
        rw [hs] at h
        simp only [Except.error.injEq, Prod.mk.injEq] at h
        obtain ⟨h1, _⟩ := h
        obtain ⟨pending, hsteps, hpend⟩ := stageSummary_error_steps env q st4 est emsg hs
        exact ⟨st4.steps, pending, by rw [← h1, hsteps], hpend⟩
      | ok st5 => rw [hs] at h; simp at h

/-- C2 (amended): a successful run has no `in_progress` step in its
final trace; a run ending via the top-level handler has exactly one —
the step begun by the raising stage, which is the last accumulated
step, every step before it being settled — followed by the handler's
own final failed step; so any run's trace has at most one `in_progress`
step. -/
theorem research_trace_statuses (env : Env) (q : String) :
    (∀ st, researchBody env q = .ok st →
      countInProgress (research env q).snd.stepDicts = 0)
    ∧ (∀ st msg, researchBody env q = .error (st, msg) →
        countInProgress (research env q).snd.stepDicts = 1
        ∧ ∃ pre pending errStep,
            st.steps = pre ++ [pending]
            ∧ cipList pre = 0
            ∧ pending.status = "in_progress"
            ∧ errStep.status = "failed"
            ∧ errStep.description = "Error in research process"
            ∧ errStep.result = some (.vdict [("error_message", .vstr msg)])
            ∧ (research env q).snd.stepDicts
                = (pre ++ [pending, errStep]).map ResearchStep.to_dict)
    ∧ countInProgress (research env q).snd.stepDicts ≤ 1 := by
  refine ⟨?_, ?_, ?_⟩
  · intro st h
    rw [research_ok_eq env q st h]
    simp only [ResearchResult.stepDicts]
    rw [countInProgress_map_to_dict]
    exact (researchBody_ok_bounds env q st h).1
  · intro st msg h
    have hb := (researchBody_error_bounds env q st msg h).1
    obtain ⟨pre, pending, hsteps, hpend⟩ := researchBody_error_steps env q st msg h
    have hone : cipList [pending] = 1 := by simp [cipList, hpend]
    have hpre : cipList pre = 0 := by
      rw [hsteps, cipList_append, hone] at hb
      omega
    constructor
    · rw [research_error_eq env q st msg h]
      simp only [ResearchResult.stepDicts]
      rw [countInProgress_map_to_dict, cipList_addCompleted, hb]
    · refine ⟨pre, pending,
        (mkResearchStep "Error in research process"
          (some ("An error occurred: " ++ msg)) (st.clock : Int)).complete false
          (some (.vdict [("error_message", .vstr msg)])) none ((st.clock + 1 : Nat) : Int),
        hsteps, hpre, hpend, rfl, rfl, rfl, ?_⟩
      rw [research_error_eq env q st msg h]
      simp only [ResearchResult.stepDicts]
      rw [addCompleted_steps, hsteps]
      simp [List.append_assoc]
  · cases hres : researchBody env q with
    | ok st =>
      rw [research_ok_eq env q st hres]
      simp only [ResearchResult.stepDicts]
      rw [countInProgress_map_to_dict]
      rw [(researchBody_ok_bounds env q st hres).1]
      exact Nat.zero_le 1
    | error p =>
      obtain ⟨st, msg⟩ := p
      rw [research_error_eq env q st msg hres]
      simp only [ResearchResult.stepDicts]
      rw [countInProgress_map_to_dict]
      rw [cipList_addCompleted]
      have h1 := (researchBody_error_bounds env q st msg hres).1
      omega

/-- Witness for C2 (amended): both hypotheses exercised — a run that
completes successfully has a settled trace, and a concretely failing
run has exactly one `in_progress` step. -/
theorem research_trace_statuses_witness :
    (∃ st, researchBody envEmptyQuery "" = .ok st)
    ∧ countInProgress (research envEmptyQuery "").snd.stepDicts = 0
    ∧ (∃ st msg, researchBody envBadExpertise "any query" = .error (st, msg))
    ∧ countInProgress (research envBadExpertise "any query").snd.stepDicts = 1 := by
  obtain ⟨st, h⟩ : ∃ st, researchBody envEmptyQuery "" = .ok st := ⟨_, rfl⟩
  obtain ⟨st2, msg2, h2⟩ :
      ∃ st msg, researchBody envBadExpertise "any query" = .error (st, msg) := ⟨_, _, rfl⟩
  exact ⟨⟨st, h⟩, (research_trace_statuses envEmptyQuery "").1 st h,
    ⟨st2, msg2, h2⟩,
    ((research_trace_statuses envBadExpertise "any query").2.1 st2 msg2 h2).1⟩

/-- C2 counterexample: a provider-delivered profile with a non-string
expertise entry makes the insight stage raise between `begin` and
`complete`; the top-level handler appends a new failed step but does
not complete the pending one, so the final trace of this ended run
contains a step with status `in_progress`. -/
theorem research_trace_statuses_cx :
    (research envBadExpertise "any query").snd.errorField.isSome = true
    ∧ countInProgress (research envBadExpertise "any query").snd.stepDicts = 1
    ∧ ((research envBadExpertise "any query").snd.stepDicts.map (fun d => d.status))
        = ["completed", "completed", "completed", "in_progress", "failed"] :=
  ⟨rfl, rfl, rfl⟩

/-- C1 (amended): an exception not absorbed by a stage fallback is
caught once at the top level and recorded as one final failed step
whose result carries the exception message; the run returns the steps
accumulated before the failure plus that step and the explicit `error`
marker, with no whole-run retry — but the error-path result dictionary
has no `profiles`, `insights` or `summary` keys, so the profiles and
insights accumulated before the failure are not part of it. -/
theorem research_top_level_handler (env : Env) (q : String) (st : AgentState) (msg : String)
    (h : researchBody env q = .error (st, msg)) :
    ∃ errStep : ResearchStep,
      errStep.description = "Error in research process"
      ∧ errStep.reasoning = some ("An error occurred: " ++ msg)
      ∧ errStep.status = "failed"
      ∧ errStep.result = some (.vdict [("error_message", .vstr msg)])
      ∧ (research env q).snd
          = .failure q ((st.steps ++ [errStep]).map ResearchStep.to_dict) msg
      ∧ (research env q).snd.profilesField = none
      ∧ (research env q).snd.insightsField = none
      ∧ (research env q).snd.summaryField = none := by
  refine ⟨(mkResearchStep "Error in research process"
      (some ("An error occurred: " ++ msg)) (st.clock : Int)).complete false
      (some (.vdict [("error_message", .vstr msg)])) none ((st.clock + 1 : Nat) : Int),
    rfl, rfl, rfl, rfl, ?_, ?_, ?_, ?_⟩
  · rw [research_error_eq env q st msg h]; rfl
  · rw [research_error_eq env q st msg h]; rfl
  · rw [research_error_eq env q st msg h]; rfl
  · rw [research_error_eq env q st msg h]; rfl

/-- Witness for C1 (amended) at a concretely failing run. -/
theorem research_top_level_handler_witness :
    ∃ st msg, researchBody envBadExpertise "any query" = .error (st, msg)
      ∧ (research envBadExpertise "any query").snd.profilesField = none := by
  obtain ⟨st, msg, h⟩ : ∃ st msg, researchBody envBadExpertise "any query" = .error (st, msg) :=
    ⟨_, _, rfl⟩
  obtain ⟨e, -, -, -, -, -, hp, -, -⟩ :=
    research_top_level_handler envBadExpertise "any query" st msg h
  exact ⟨st, msg, h, hp⟩

/-- C1 counterexample: a run that accumulates one profile and then
fails during insight generation returns an error-shape result that
carries the step trace and the error marker but no `profiles` or
`insights` keys, so the accumulated profile is absent from it. -/
theorem research_failure_omits_profiles_cx :
    (research envBadExpertise "any query").fst.profiles = [badProfile]
    ∧ (research envBadExpertise "any query").snd.errorField
        = some "sequence item: expected str instance, int found"
    ∧ (research envBadExpertise "any query").snd.profilesField = none
    ∧ (research envBadExpertise "any query").snd.insightsField = none :=
  ⟨rfl, rfl, rfl, rfl⟩

/-- C3: in the Search stage the primary term is the first extracted
role when the roles list is non-empty, else the raw query, passed with
the extracted organization when present (truthy); exactly when the
primary search returns an empty list, one fallback search with the
unmodified original query and no organization is performed and recorded
as a distinct broader-search step; and a whole run never makes more
than these two search calls. -/
theorem search_stage_policy :
    (∀ env q qa st,
      (stageSearch env q qa st).searchCalls
        = st.searchCalls ++ [(primarySearchQuery q qa, primaryOrgArg qa)]
            ++ (if (search_people env (primarySearchQuery q qa) (primaryOrgArg qa)).isEmpty
                then [(q, none)] else [])
      ∧ (stageSearch env q qa st).profiles
          = (if (search_people env (primarySearchQuery q qa) (primaryOrgArg qa)).isEmpty then
               (if (search_people env q none).isEmpty then st.profiles
                else search_people env q none)
             else search_people env (primarySearchQuery q qa) (primaryOrgArg qa))
      ∧ countBroader (stageSearch env q qa st).steps
          = countBroader st.steps
            + (if (search_people env (primarySearchQuery q qa) (primaryOrgArg qa)).isEmpty
               then 1 else 0))
    ∧ (∀ q qa, primarySearchQuery q qa = (match qa.roles with | [] => q | r :: _ => r))
    ∧ (∀ qa, primaryOrgArg qa = (if strOptTruthy qa.company then qa.company else none))
    ∧ (∀ env q, (research env q).fst.searchCalls.length ≤ 2) := by
  refine ⟨fun env q qa st =>
      ⟨stageSearch_searchCalls .., stageSearch_profiles .., stageSearch_countBroader ..⟩,
    fun q qa => rfl, fun qa => rfl, ?_⟩
  intro env q
  cases hres : researchBody env q with
  | ok st =>
    rw [research_ok_eq env q st hres]
    exact (researchBody_ok_bounds env q st hres).2
  | error p =>
    obtain ⟨st, msg⟩ := p
    rw [research_error_eq env q st msg hres]
    exact (researchBody_error_bounds env q st msg hres).2

/-- C4 (amended): the summary-composition stage runs on every run that
does not abort via the top-level handler, whatever the gathered data;
the placeholder phrasings are substituted for missing sections into the
prompt sent to the summary LLM, not into the produced summary, which is
the LLM's opaque content; and for the query `""` the run still ends
with status `completed` (no error marker). -/
theorem summary_composition_amended :
    (∀ env q st, researchBody env q = .ok st →
        ∃ s, s ∈ st.steps ∧ s.description = "Creating research summary"
          ∧ s.status = "completed")
    ∧ (∀ q ci ins, ∃ a b, create_summary_prompt q ci [] ins
          = a ++ "Professionals Found:\nNo profiles found.\n\n" ++ b)
    ∧ (∀ q ci pts, ∃ a b, create_summary_prompt q ci pts []
          = a ++ "Insights:\nNo insights available.\n\n" ++ b)
    ∧ (research envEmptyQuery "").snd.errorField = none
    ∧ (run_research_task_process (research envEmptyQuery "").snd).status = "completed" := by
  refine ⟨?_, ?_, ?_, rfl, rfl⟩
  · intro env q st h
    obtain ⟨st1, qa, st4, ha, hi, hs⟩ := researchBody_ok_decompose env q st h
    unfold stageSummary at hs
    cases hc : create_summary env q st4.profiles st4.company_info st4.insights with
    | error e => rw [hc] at hs; simp at hs
    | ok sres =>
      rw [hc] at hs
      simp only [Except.ok.injEq] at hs
      subst hs
      refine ⟨(mkResearchStep "Creating research summary"
          (some "Synthesizing findings into a comprehensive research summary.")
          (st4.clock : Int)).complete true none none ((st4.clock + 1 : Nat) : Int),
        ?_, rfl, rfl⟩
      show _ ∈ st4.steps ++ [_]
      exact List.mem_append_right _ (List.mem_singleton.mpr rfl)
  · intro q ci ins
    refine ⟨"Create a comprehensive LinkedIn research summary based on the following:\n\n"
        ++ ("Original Query:\n" ++ q ++ "\n\n")
        ++ (if (summaryCompanyText ci == "") = true then ""
            else summaryCompanyText ci ++ "\n\n"),
      (if (summaryInsightsText ins == "") = true then "Insights:\nNo insights available.\n\n"
       else "Insights:\n" ++ summaryInsightsText ins ++ "\n\n")
      ++ ("Create a detailed research summary in Markdown format that includes:\n"
          ++ "1. A summary of the research request\n"
          ++ "2. Company overview (if applicable)\n"
          ++ "3. Key professionals found\n"
          ++ "4. Patterns and insights\n"
          ++ "5. Recommendations for networking or further research\n\n"
          ++ "Make the summary actionable and insightful for a business professional."), ?_⟩
    simp only [create_summary_prompt, List.isEmpty_nil, if_true]
    simp [strAppendAssoc]
  · intro q ci pts
    refine ⟨"Create a comprehensive LinkedIn research summary based on the following:\n\n"
        ++ ("Original Query:\n" ++ q ++ "\n\n")
        ++ (if (summaryCompanyText ci == "") = true then ""
            else summaryCompanyText ci ++ "\n\n")
        ++ (if pts.isEmpty = true then "Professionals Found:\nNo profiles found.\n\n"
            else "Professionals Found:\n" ++ "\n".intercalate pts ++ "\n\n"),
      ("Create a detailed research summary in Markdown format that includes:\n"
        ++ "1. A summary of the research request\n"
        ++ "2. Company overview (if applicable)\n"
        ++ "3. Key professionals found\n"
        ++ "4. Patterns and insights\n"
        ++ "5. Recommendations for networking or further research\n\n"
        ++ "Make the summary actionable and insightful for a business professional."), ?_⟩
    have hins : summaryInsightsText [] = "" := rfl
    simp only [create_summary_prompt, hins]
    simp [strAppendAssoc]

/-- Witness for C4 (amended) at a successfully completing run. -/
theorem summary_composition_amended_witness :
    ∃ st, researchBody envEmptyQuery "" = .ok st
      ∧ ∃ s, s ∈ st.steps ∧ s.description = "Creating research summary"
          ∧ s.status = "completed" := by
  obtain ⟨st, h⟩ : ∃ st, researchBody envEmptyQuery "" = .ok st := ⟨_, rfl⟩
  exact ⟨st, h, summary_composition_amended.1 envEmptyQuery "" st h⟩

/-- C4 counterexample: for the query `""` the run completes with no
profiles, yet the produced summary is the LLM content verbatim and
need not contain the phrase `"No profiles found"` — the placeholder
lives in the prompt, not in the summary. -/
theorem summary_composition_cx :
    (research envEmptyQuery "").fst.profiles = []
    ∧ (research envEmptyQuery "").snd.errorField = none
    ∧ (research envEmptyQuery "").snd.summaryField = some "All done."
    ∧ strContainsB "All done." "No profiles found" = false :=
  ⟨rfl, rfl, rfl, by decide⟩

/-- C7 (amended): a failing insight-generation LLM call is absorbed
locally into the one-element placeholder list and never escalates — any
run whose body completes carries no error marker and is transitioned to
`completed` by the task runner, which stores the summary stage's output
as the record summary; the summary LLM's own failure is likewise
absorbed into a non-empty placeholder string, but a succeeding summary
call is stored verbatim, so the stored summary is non-empty exactly
when that content is. -/
theorem insight_failure_absorbed :
    (∀ env profiles company roles ex ts,
        env.insightsResp = .error ex →
        formatProfilesText profiles = .ok ts →
        generate_insights env profiles company roles
          = .ok ["Unable to generate insights due to an error."])
    ∧ (∀ env q st, researchBody env q = .ok st →
        (research env q).snd.errorField = none
        ∧ (run_research_task_process (research env q).snd).status = "completed"
        ∧ (run_research_task_process (research env q).snd).summary = st.summary.getD "")
    ∧ (∀ env q profiles ci ins ts e,
        formatProfilesText (profiles.take 5) = .ok ts →
        env.summaryResp (create_summary_prompt q ci ts ins) = .error e →
        create_summary env q profiles ci ins
          = .ok "Unable to generate a summary due to an error.")
    ∧ "Unable to generate a summary due to an error." ≠ "" := by
  refine ⟨?_, ?_, ?_, by decide⟩
  · intro env profiles company roles ex ts h1 h2
    unfold generate_insights
    rw [h2, h1]
  · intro env q st h
    rw [research_ok_eq env q st h]
    exact ⟨rfl, rfl, rfl⟩
  · intro env q profiles ci ins ts e h1 h2
    unfold create_summary
    rw [h1]
    simp only []
    rw [h2]

/-- Witness for C7 (amended): the insight LLM failure of
`envInsightsDown` is absorbed into the placeholder list. -/
theorem insight_failure_absorbed_witness :
    envInsightsDown.insightsResp = .error { msg := "llm down" }
    ∧ ∃ ts, formatProfilesText [goodProfile] = .ok ts
        ∧ generate_insights envInsightsDown [goodProfile] none []
            = .ok ["Unable to generate insights due to an error."] := by
  obtain ⟨ts, h⟩ : ∃ ts, formatProfilesText [goodProfile] = .ok ts := ⟨_, rfl⟩
  exact ⟨rfl, ts, h,
    insight_failure_absorbed.1 envInsightsDown [goodProfile] none [] { msg := "llm down" }
      ts rfl h⟩

/-- C7 counterexample: with the insight LLM down and the summary LLM
returning empty content, the run reaches `completed` but the stored
summary string is empty. -/
theorem insight_failure_empty_summary_cx :
    envInsightsDown.insightsResp = .error { msg := "llm down" }
    ∧ (research envInsightsDown "q").fst.insights
        = ["Unable to generate insights due to an error."]
    ∧ (run_research_task_process (research envInsightsDown "q").snd).status = "completed"
    ∧ (run_research_task_process (research envInsightsDown "q").snd).summary = "" :=
  ⟨rfl, rfl, rfl, rfl⟩
